import Mathlib

/-!
Verification development for the voice-assistant front end
(single orchestration file `App.tsx` plus `types.ts`).

The mutable React refs and state hooks of the source are embedded as one
explicit `AppState` record; each callback of the source (`stopSession`,
`startSession`, `handleAutoReconnect`, the `onopen` / `onmessage` /
`onerror` / `onclose` session callbacks) becomes a pure state
transformer.  Browser timers (`window.setTimeout` / `clearTimeout`) are
embedded as a multiset of live pending timers plus the single id ref the
source keeps, so that timer-leak behaviour is observable.  The sample
codec (`utils/audio-utils`) is not part of the sources and is modelled
from the specification where indicated.
-/

namespace VoiceApp

/-- Speaker role of a transcript entry (`'user' | 'assistant'`). -/
inductive Role where
  | user
  | assistant
deriving DecidableEq, Repr

/-- `TranscriptionEntry` from `App.tsx`: `{id, role, text}`. -/
structure TranscriptionEntry where
  id : String
  role : Role
  text : String
deriving DecidableEq, Repr

/-- `VoiceState` from `types.ts`: the four session booleans. -/
structure VoiceState where
  isListening : Bool
  isSpeaking : Bool
  isConnected : Bool
  isConnecting : Bool
deriving DecidableEq, Repr

/-- One scheduled playback segment: the `AudioBufferSourceNode` of the
source, reduced to its scheduled start time and buffer duration
(seconds on the output `AudioContext` clock). -/
structure Segment where
  start : ℚ
  duration : ℚ
deriving DecidableEq, Repr

/-- A live `window.setTimeout` timer: its id and its delay in ms. -/
structure Timer where
  id : Nat
  delay : Nat
deriving DecidableEq, Repr

/-- Environment of one `startSession` attempt: the outcomes of the
asynchronous collaborator calls the source makes
(`window.aistudio`, `process.env.API_KEY`, `getUserMedia`,
audio-context setup). -/
structure StartEnv where
  aistudioPresent : Bool
  hasSelectedApiKey : Bool
  apiKeyPresent : Bool
  micGranted : Bool
  setupFails : Bool
deriving DecidableEq, Repr

/-- The whole mutable state of `App.tsx`: the React `useState` values and
the `useRef` cells, plus the pool of live timers of the browser runtime.
`sessionRef`, the audio contexts and the 8-second error-clear timer are
not referenced by any claim and are left out of the embedding. -/
structure AppState where
  voiceState : VoiceState
  transcriptionHistory : List TranscriptionEntry
  currentUserText : String
  currentAssistantText : String
  errorMessage : Option String
  hasInteracted : Bool
  needsApiKey : Bool
  nextStartTime : ℚ
  sources : List Segment
  reconnectTimerRef : Option Nat
  pendingTimers : List Timer
  nextTimerId : Nat
  userTextRef : String
  assistantTextRef : String
deriving DecidableEq, Repr

/-- All-false `VoiceState`, as written in `stopSession`. -/
def allFalse : VoiceState :=
  { isListening := false, isSpeaking := false, isConnected := false, isConnecting := false }

/-- Initial state of the component: the `useState` initialisers. Timer
ids start at 1 because browser timeout ids are positive (the source
tests the ref for truthiness). -/
def initState : AppState :=
  { voiceState := allFalse
    transcriptionHistory := []
    currentUserText := ""
    currentAssistantText := ""
    errorMessage := none
    hasInteracted := false
    needsApiKey := false
    nextStartTime := 0
    sources := []
    reconnectTimerRef := none
    pendingTimers := []
    nextTimerId := 1
    userTextRef := ""
    assistantTextRef := "" }

/-- `showError(msg)`: sets the error message.  The 8-second auto-clear
timer it also arms is not referenced by any claim and is dropped. -/
def showError (s : AppState) (msg : String) : AppState :=
  { s with errorMessage := some msg }

/-- `clearTimeout(reconnectTimeoutRef.current)` guarded by the ref being
set: removes the ref'd timer from the pool of live timers. -/
def clearReconnectTimeout (s : AppState) : AppState :=
  { s with pendingTimers :=
      match s.reconnectTimerRef with
      | some i => s.pendingTimers.filter (fun t => t.id != i)
      | none => s.pendingTimers }

/-- `reconnectTimeoutRef.current = window.setTimeout(..., delay)`:
arms a fresh timer and stores its id in the ref. -/
def setReconnectTimeout (s : AppState) (delay : Nat) : AppState :=
  { s with pendingTimers := s.pendingTimers ++ [⟨s.nextTimerId, delay⟩]
           reconnectTimerRef := some s.nextTimerId
           nextTimerId := s.nextTimerId + 1 }

/-- `stopSession`: closes the session and the audio contexts, resets the
four state booleans to false, stops every live source node and clears
the set.  It does not touch the transcript state, the timeline cursor
`nextStartTimeRef`, or the reconnect timer. -/
def stopSession (s : AppState) : AppState :=
  { s with voiceState := allFalse
           sources := [] }

/-- `handleAutoReconnect`: clears any ref'd pending timer, runs
`stopSession`, then arms a 5000 ms reconnect timer when the user has
interacted and no re-authorisation is pending.
`hasInteracted` and `needsApiKey` are read from the captured React
state, which neither `clearTimeout` nor `stopSession` changes. -/
def handleAutoReconnect (s : AppState) : AppState :=
  if s.hasInteracted && !s.needsApiKey then
    setReconnectTimeout (stopSession (clearReconnectTimeout s)) 5000
  else stopSession (clearReconnectTimeout s)

/-- The synthetic welcome text pushed in `onopen`. -/
def welcomeText : String :=
  "Neural link established. Welcome to Horizon OS. I am your spatial assistant."

/-- `onopen` callback: marks the session connected and listening, clears
the error message, and appends the welcome entry to the history without
truncation. -/
def onopen (now : Nat) (s : AppState) : AppState :=
  { s with voiceState := { s.voiceState with
                             isConnected := true, isListening := true, isConnecting := false }
           errorMessage := none
           transcriptionHistory := s.transcriptionHistory ++
             [⟨"welcome-" ++ toString now, Role.assistant, welcomeText⟩] }

/-- `onmessage`, output-transcription branch: append the fragment to the
assistant accumulator ref and mirror it into the live preview. -/
def appendOutputTranscription (s : AppState) (text : String) : AppState :=
  { s with assistantTextRef := s.assistantTextRef ++ text
           currentAssistantText := s.assistantTextRef ++ text }

/-- `onmessage`, input-transcription branch: append the fragment to the
user accumulator ref and mirror it into the live preview. -/
def appendInputTranscription (s : AppState) (text : String) : AppState :=
  { s with userTextRef := s.userTextRef ++ text
           currentUserText := s.userTextRef ++ text }

/-- `Array.prototype.slice(-n)`: the last `n` elements (the whole list
when it is shorter than `n`). -/
def takeLast (l : List α) (n : Nat) : List α :=
  l.drop (l.length - n)

/-- The `{role: user}` entry pushed on turn completion
(`Date.now() + '-u'`). -/
def userEntry (now : Nat) (text : String) : TranscriptionEntry :=
  ⟨toString now ++ "-u", Role.user, text⟩

/-- The `{role: assistant}` entry pushed on turn completion
(`Date.now() + '-a'`). -/
def assistantEntry (now : Nat) (text : String) : TranscriptionEntry :=
  ⟨toString now ++ "-a", Role.assistant, text⟩

/-- `onmessage`, `turnComplete` branch: push a user entry when the user
accumulator is non-empty (JS truthiness of a string), then an assistant
entry when that accumulator is non-empty, truncate with `slice(-6)`,
and clear both accumulator refs and both live-preview strings. -/
def turnComplete (now : Nat) (s : AppState) : AppState :=
  let h1 := if s.userTextRef = "" then s.transcriptionHistory
            else s.transcriptionHistory ++ [userEntry now s.userTextRef]
  let h2 := if s.assistantTextRef = "" then h1
            else h1 ++ [assistantEntry now s.assistantTextRef]
  { s with transcriptionHistory := takeLast h2 6
           userTextRef := ""
           assistantTextRef := ""
           currentUserText := ""
           currentAssistantText := "" }

/-- `onmessage`, audio-payload branch: set `isSpeaking`, pull the cursor
up to the device clock (`Math.max`), schedule the node at the cursor,
advance the cursor by the buffer duration, and track the node.
`clock` is `outputCtx.currentTime` at the moment of the enqueue. -/
def enqueueAudio (s : AppState) (clock duration : ℚ) : AppState :=
  { s with voiceState := { s.voiceState with isSpeaking := true }
           nextStartTime := max s.nextStartTime clock + duration
           sources := s.sources ++ [⟨max s.nextStartTime clock, duration⟩] }

/-- `ended` listener of a source node: drop it from the active set and
clear `isSpeaking` when the set becomes empty. -/
def sourceEnded (s : AppState) (seg : Segment) : AppState :=
  { s with sources := s.sources.erase seg
           voiceState := if s.sources.erase seg = []
                         then { s.voiceState with isSpeaking := false }
                         else s.voiceState }

/-- `onmessage`, `interrupted` branch: stop every tracked node, clear
the set, zero the timeline cursor, clear `isSpeaking`. -/
def interrupted (s : AppState) : AppState :=
  { s with sources := []
           nextStartTime := 0
           voiceState := { s.voiceState with isSpeaking := false } }

/-- `msg.includes(needle)` of JS, on unpacked character lists. -/
def charsLeadWith : List Char → List Char → Bool
  | [], _ => true
  | _ :: _, [] => false
  | a :: as, b :: bs => a == b && charsLeadWith as bs

/-- `hay.includes(needle)`: some suffix of `hay` starts with `needle`. -/
def strContains (hay needle : String) : Bool :=
  (List.range (hay.toList.length + 1)).any
    (fun k => charsLeadWith needle.toList (hay.toList.drop k))

/-- The credential-error test of `onerror`:
`msg.includes("Requested entity was not found") || msg.includes("API_KEY_INVALID")`. -/
def isCredentialError (msg : String) : Bool :=
  strContains msg "Requested entity was not found" || strContains msg "API_KEY_INVALID"

/-- `onerror` callback: credential errors surface the rejection message,
set `needsApiKey` and stop the session; every other error surfaces the
transient message and runs `handleAutoReconnect`. -/
def onerror (s : AppState) (msg : String) : AppState :=
  if isCredentialError msg then
    stopSession { showError s "Link rejected. Key might be invalid or from unpaid project."
                  with needsApiKey := true }
  else
    handleAutoReconnect
      (showError s "Neural bridge sync failure. Attempting recalibration...")

/-- `onclose` callback: an unclean close surfaces the termination
message and runs `handleAutoReconnect`; a clean close does nothing. -/
def onclose (s : AppState) (wasClean : Bool) : AppState :=
  if wasClean then s
  else handleAutoReconnect (showError s "Spatial Link unexpectedly terminated.")

/-- Phase of `startSession` after the key checks: contexts are opened
and `isConnecting` is already true.  A setup throw lands in the outer
`catch` (transient message plus `handleAutoReconnect`); a `getUserMedia`
rejection surfaces the microphone message and aborts; otherwise the
connect call is issued and the attempt stays pending until `onopen`. -/
def connectPhase (env : StartEnv) (s : AppState) : AppState :=
  if env.setupFails then
    handleAutoReconnect (showError s "Connection attempt failed. Retrying...")
  else if !env.micGranted then
    { showError s "Microphone access is restricted. Enable permissions for link."
      with voiceState := { s.voiceState with isConnecting := false } }
  else s

/-- Body of `startSession` after the idempotence guard:
`hasInteracted := true` and `needsApiKey := false` are already applied.
The aistudio key check and the missing `API_KEY` check abort with
`isConnecting := false`; otherwise `isConnecting := true` and the
connect phase runs. -/
def startSessionBody (env : StartEnv) (s : AppState) : AppState :=
  if env.aistudioPresent && !env.hasSelectedApiKey then
    { s with needsApiKey := true
             voiceState := { s.voiceState with isConnecting := false } }
  else if !env.apiKeyPresent then
    { showError s "Neural link requires a valid access key. Please configure environment."
      with voiceState := { s.voiceState with isConnecting := false } }
  else
    connectPhase env { s with voiceState := { s.voiceState with isConnecting := true } }

/-- `startSession`: a no-op while connecting or connected, otherwise
records the interaction, clears `needsApiKey` and runs the body. -/
def startSession (env : StartEnv) (s : AppState) : AppState :=
  if s.voiceState.isConnecting || s.voiceState.isConnected then s
  else startSessionBody env { s with hasInteracted := true, needsApiKey := false }

/-- The external events the component reacts to.  `start` is a user
click (or the mount effect), `opened` / `msg…` / `errored` / `closed`
are session callbacks, `ended` is a source node finishing, `stop` is the
user's terminate click, `timerFire` is a pending browser timer firing
(which runs `startSession`). -/
inductive Event where
  | start (env : StartEnv)
  | opened (now : Nat)
  | msgOutputTranscription (text : String)
  | msgInputTranscription (text : String)
  | msgTurnComplete (now : Nat)
  | msgAudio (clock duration : ℚ)
  | msgInterrupted
  | ended (seg : Segment)
  | errored (msg : String)
  | closed (wasClean : Bool)
  | stop
  | timerFire (t : Timer) (env : StartEnv)

/-- Small-step semantics of the component under the single-threaded
browser event loop.  Inbound session messages are delivered only while
the session is connected (between `onopen` and `close`); `ended` fires
only for a node that is still tracked; a timer fires only while it is
live, is removed from the live pool by the runtime, and then runs its
`startSession` callback.  `opened`, `errored` and `closed` carry no
guard: callbacks of a connect call may still resolve after a manual
stop, so allowing them in every state over-approximates the source's
behaviour. -/
inductive Step : AppState → Event → AppState → Prop where
  | start (s : AppState) (env : StartEnv) :
      Step s (Event.start env) (startSession env s)
  | opened (s : AppState) (now : Nat) :
      Step s (Event.opened now) (onopen now s)
  | msgOutputTranscription (s : AppState) (text : String)
      (h : s.voiceState.isConnected = true) :
      Step s (Event.msgOutputTranscription text) (appendOutputTranscription s text)
  | msgInputTranscription (s : AppState) (text : String)
      (h : s.voiceState.isConnected = true) :
      Step s (Event.msgInputTranscription text) (appendInputTranscription s text)
  | msgTurnComplete (s : AppState) (now : Nat)
      (h : s.voiceState.isConnected = true) :
      Step s (Event.msgTurnComplete now) (turnComplete now s)
  | msgAudio (s : AppState) (clock duration : ℚ)
      (h : s.voiceState.isConnected = true) :
      Step s (Event.msgAudio clock duration) (enqueueAudio s clock duration)
  | msgInterrupted (s : AppState)
      (h : s.voiceState.isConnected = true) :
      Step s Event.msgInterrupted (interrupted s)
  | ended (s : AppState) (seg : Segment)
      (h : seg ∈ s.sources) :
      Step s (Event.ended seg) (sourceEnded s seg)
  | errored (s : AppState) (msg : String) :
      Step s (Event.errored msg) (onerror s msg)
  | closed (s : AppState) (wasClean : Bool) :
      Step s (Event.closed wasClean) (onclose s wasClean)
  | stop (s : AppState) :
      Step s Event.stop (stopSession s)
  | timerFire (s : AppState) (t : Timer) (env : StartEnv)
      (h : t ∈ s.pendingTimers) :
      Step s (Event.timerFire t env)
        (startSession env
          { s with pendingTimers := s.pendingTimers.filter (fun t2 => t2.id != t.id) })

/-- States reachable from the freshly mounted component. -/
inductive Reachable : AppState → Prop where
  | init : Reachable initState
  | step {s s' : AppState} {e : Event} : Reachable s → Step s e s' → Reachable s'

/-- The mutual-consistency invariant of the four `VoiceState` booleans. -/
def StateConsistent (s : AppState) : Prop :=
  (s.voiceState.isListening = true → s.voiceState.isConnected = true) ∧
  (s.voiceState.isSpeaking = true → s.voiceState.isConnected = true) ∧
  (s.voiceState.isConnecting = true → s.voiceState.isConnected = false)

instance (s : AppState) : Decidable (StateConsistent s) := by
  unfold StateConsistent; infer_instance

/-- Timer-pool invariant: every live reconnect timer is the one the ref
points at, so at most one is pending and `clearReconnectTimeout` really
empties the pool. -/
def TimerInv (s : AppState) : Prop :=
  s.pendingTimers = [] ∨
    ∃ i, s.reconnectTimerRef = some i ∧ s.pendingTimers = [⟨i, 5000⟩]

/-- Gapless, non-overlapping chaining of scheduled segments: each
segment ends at or before the next one starts. -/
def SegChain (l : List Segment) : Prop :=
  List.Chain' (fun a b => a.start + a.duration ≤ b.start) l

/-- The audio-payload branch iterated over a list of
(device clock, duration) observations, in arrival order. -/
def runEnqueues (s : AppState) : List (ℚ × ℚ) → AppState
  | [] => s
  | p :: rest => runEnqueues (enqueueAudio s p.1 p.2) rest

/-! ### Sample codec

`createPcmBlob`, `decode` and `decodeAudioData` are imported from
`utils/audio-utils`, a repository file that is not among the sources;
the codec is therefore modelled from the specification (§4.1): encode
converts each sample of `[-1,1]` to a 16-bit signed little-endian
integer and packs the frame; decode reinterprets the bytes as 16-bit
little-endian signed integers and normalises back to `[-1,1]`.  The
base64 text envelope is a bijection on the byte sequence and is elided:
frames are byte lists. -/

/-- Modelled from the spec: quantisation of one sample of `[-1,1]` to a
16-bit signed integer (missing source file `utils/audio-utils`,
`createPcmBlob`). -/
def encodeSample (x : ℚ) : ℤ := round (x * 32767)

/-- Low byte of the little-endian 16-bit two's-complement encoding. -/
def byteLo (i : ℤ) : ℕ := (i % 65536).toNat % 256

/-- High byte of the little-endian 16-bit two's-complement encoding. -/
def byteHi (i : ℤ) : ℕ := (i % 65536).toNat / 256

/-- Modelled from the spec: pack a frame of samples as 16-bit signed
little-endian integers (missing source file `utils/audio-utils`,
`createPcmBlob`). -/
def encodeInputFrame : List ℚ → List ℕ
  | [] => []
  | x :: rest => byteLo (encodeSample x) :: byteHi (encodeSample x) :: encodeInputFrame rest

/-- Two's-complement reading of a little-endian byte pair. -/
def decodeInt16 (lo hi : ℕ) : ℤ :=
  if lo + 256 * hi < 32768 then (lo + 256 * hi : ℤ) else (lo + 256 * hi : ℤ) - 65536

/-- Modelled from the spec: reinterpret a byte sequence as 16-bit
little-endian signed integers and normalise to `[-1,1]` (missing source
file `utils/audio-utils`, `decode` / `decodeAudioData`).  A trailing odd
byte and the empty payload produce no further samples. -/
def decodeOutputPayload : List ℕ → List ℚ
  | lo :: hi :: rest => (decodeInt16 lo hi : ℚ) / 32767 :: decodeOutputPayload rest
  | _ => []

/-! ### Concrete scenario states -/

/-- A start environment in which every collaborator call succeeds:
no aistudio key gate, `API_KEY` configured, microphone granted. -/
def envOK : StartEnv :=
  { aistudioPresent := false
    hasSelectedApiKey := false
    apiKeyPresent := true
    micGranted := true
    setupFails := false }

/-- One completed turn in which the user said `"hey"`. -/
def c3Turn (k : Nat) (s : AppState) : AppState :=
  turnComplete k (appendInputTranscription s "hey")

/-- Session opened and five turns completed: welcome entry plus five
user entries, history length 6. -/
def c3Six : AppState :=
  c3Turn 5 (c3Turn 4 (c3Turn 3 (c3Turn 2 (c3Turn 1 (onopen 0 (startSession envOK initState))))))

/-- After an abnormal close and a restart, the second `onopen` pushes a
seventh entry without truncation. -/
def c3Final : AppState :=
  onopen 9 (startSession envOK (onclose c3Six false))

/-- State right after a transient session error during a user-initiated
session: `handleAutoReconnect` has armed the 5-second timer. -/
def c2ErrState : AppState :=
  onerror (startSession envOK initState) "network failure"

/-! ### Basic facts about the operations -/

lemma clearReconnectTimeout_timers (s : AppState) (h : TimerInv s) :
    (clearReconnectTimeout s).pendingTimers = [] := by
  rcases h with h | ⟨i, hr, hp⟩
  · show (match s.reconnectTimerRef with
          | some i => s.pendingTimers.filter (fun t => t.id != i)
          | none => s.pendingTimers) = []
    cases s.reconnectTimerRef <;> simp [h]
  · show (match s.reconnectTimerRef with
          | some i => s.pendingTimers.filter (fun t => t.id != i)
          | none => s.pendingTimers) = []
    rw [hr]
    simp [hp, List.filter]

lemma handleAutoReconnect_voiceState (s : AppState) :
    (handleAutoReconnect s).voiceState = allFalse := by
  unfold handleAutoReconnect
  split <;> simp [setReconnectTimeout, stopSession]

lemma handleAutoReconnect_nextStartTime (s : AppState) :
    (handleAutoReconnect s).nextStartTime = s.nextStartTime := by
  unfold handleAutoReconnect
  split <;> rfl

lemma timerInv_handleAutoReconnect (s : AppState) (h : TimerInv s) :
    TimerInv (handleAutoReconnect s) := by
  have hc := clearReconnectTimeout_timers s h
  unfold handleAutoReconnect
  split
  · exact Or.inr ⟨(stopSession (clearReconnectTimeout s)).nextTimerId, rfl,
      by simp [setReconnectTimeout, stopSession, hc]⟩
  · exact Or.inl (by simp [stopSession, hc])

lemma handleAutoReconnect_timers_armed (s : AppState) (h : TimerInv s)
    (ha : s.hasInteracted = true) (hk : s.needsApiKey = false) :
    (handleAutoReconnect s).pendingTimers = [⟨s.nextTimerId, 5000⟩] := by
  have hc := clearReconnectTimeout_timers s h
  unfold handleAutoReconnect
  split
  · simp [setReconnectTimeout, stopSession, hc]
    rfl
  · simp_all

lemma handleAutoReconnect_timers_unarmed (s : AppState) (h : TimerInv s)
    (hd : ¬(s.hasInteracted = true ∧ s.needsApiKey = false)) :
    (handleAutoReconnect s).pendingTimers = [] := by
  have hc := clearReconnectTimeout_timers s h
  unfold handleAutoReconnect
  split
  · rename_i harm
    simp only [Bool.and_eq_true, Bool.not_eq_true'] at harm
    exact absurd harm hd
  · simp [stopSession, hc]

/-! ### Preservation of the VoiceState consistency invariant -/

lemma voiceState_ext (v : VoiceState)
    (hl : v.isListening = false) (hs : v.isSpeaking = false)
    (hc : v.isConnected = false) (hg : v.isConnecting = false) : v = allFalse := by
  cases v
  simp_all [allFalse]

lemma sc_of_voiceState_allFalse (s : AppState) (h : s.voiceState = allFalse) :
    StateConsistent s := by
  unfold StateConsistent
  rw [h]
  simp [allFalse]

lemma sc_stopSession (s : AppState) : StateConsistent (stopSession s) :=
  sc_of_voiceState_allFalse _ rfl

lemma sc_handleAutoReconnect (s : AppState) : StateConsistent (handleAutoReconnect s) :=
  sc_of_voiceState_allFalse _ (handleAutoReconnect_voiceState s)

lemma sc_onopen (now : Nat) (s : AppState) : StateConsistent (onopen now s) := by
  unfold StateConsistent onopen
  simp

lemma sc_enqueueAudio (s : AppState) (clock duration : ℚ)
    (h : StateConsistent s) (hc : s.voiceState.isConnected = true) :
    StateConsistent (enqueueAudio s clock duration) := by
  unfold StateConsistent enqueueAudio at *
  refine ⟨fun hl => hc, fun _ => hc, fun hg => ?_⟩
  exact absurd hc (by simp [h.2.2 hg])

lemma sc_sourceEnded (s : AppState) (seg : Segment) (h : StateConsistent s) :
    StateConsistent (sourceEnded s seg) := by
  unfold StateConsistent sourceEnded at *
  split
  · exact ⟨h.1, by simp, h.2.2⟩
  · exact h

lemma sc_interrupted (s : AppState) (h : StateConsistent s) :
    StateConsistent (interrupted s) := by
  unfold StateConsistent interrupted at *
  exact ⟨h.1, by simp, h.2.2⟩

lemma sc_startSessionBody (env : StartEnv) (s : AppState)
    (hvs : s.voiceState = allFalse) : StateConsistent (startSessionBody env s) := by
  unfold startSessionBody connectPhase
  split
  · exact ⟨by simp [hvs, allFalse], by simp [hvs, allFalse], by simp⟩
  · split
    · exact ⟨by simp [showError, hvs, allFalse], by simp [showError, hvs, allFalse], by simp⟩
    · split
      · exact sc_handleAutoReconnect _
      · split
        · exact ⟨by simp [showError, hvs, allFalse], by simp [showError, hvs, allFalse], by simp⟩
        · exact ⟨by simp [hvs, allFalse], by simp [hvs, allFalse], by simp [hvs, allFalse]⟩

lemma sc_startSession (env : StartEnv) (s : AppState) (h : StateConsistent s) :
    StateConsistent (startSession env s) := by
  unfold startSession
  split
  · exact h
  · rename_i hg
    simp only [Bool.or_eq_true, not_or, Bool.not_eq_true] at hg
    have hl : s.voiceState.isListening = false := by
      cases hli : s.voiceState.isListening
      · rfl
      · exact absurd (h.1 hli) (by simp [hg.2])
    have hs : s.voiceState.isSpeaking = false := by
      cases hsp : s.voiceState.isSpeaking
      · rfl
      · exact absurd (h.2.1 hsp) (by simp [hg.2])
    exact sc_startSessionBody env _ (voiceState_ext _ hl hs hg.2 hg.1)

/-! ### Preservation of the timer-pool invariant -/

lemma timerInv_startSession (env : StartEnv) (s : AppState) (h : TimerInv s) :
    TimerInv (startSession env s) := by
  unfold startSession startSessionBody connectPhase
  split
  · exact h
  · split
    · exact h
    · split
      · exact h
      · split
        · exact timerInv_handleAutoReconnect _ h
        · split
          · exact h
          · exact h

lemma sc_onerror (s : AppState) (msg : String) : StateConsistent (onerror s msg) := by
  unfold onerror
  split
  · exact sc_stopSession _
  · exact sc_handleAutoReconnect _

lemma sc_onclose (s : AppState) (wasClean : Bool) (h : StateConsistent s) :
    StateConsistent (onclose s wasClean) := by
  unfold onclose
  split
  · exact h
  · exact sc_handleAutoReconnect _

lemma timerInv_onerror (s : AppState) (msg : String) (h : TimerInv s) :
    TimerInv (onerror s msg) := by
  unfold onerror
  split
  · exact h
  · exact timerInv_handleAutoReconnect _ h

lemma timerInv_onclose (s : AppState) (wasClean : Bool) (h : TimerInv s) :
    TimerInv (onclose s wasClean) := by
  unfold onclose
  split
  · exact h
  · exact timerInv_handleAutoReconnect _ h

lemma timerInv_removeFired (s : AppState) (t : Timer) (h : TimerInv s)
    (hm : t ∈ s.pendingTimers) :
    TimerInv { s with pendingTimers := s.pendingTimers.filter (fun t2 => t2.id != t.id) } := by
  rcases h with h | ⟨i, hr, hp⟩
  · rw [h] at hm
    exact absurd hm (List.not_mem_nil t)
  · left
    rw [hp] at hm ⊢
    have ht : t = ⟨i, 5000⟩ := List.mem_singleton.mp hm
    simp [ht, List.filter]

/-! ### The two reachability invariants -/

lemma sc_reachable (s : AppState) (h : Reachable s) : StateConsistent s := by
  induction h with
  | init => decide
  | step _ hstep ih =>
    cases hstep with
    | start env => exact sc_startSession env _ ih
    | opened now => exact sc_onopen now _
    | msgOutputTranscription text _ => exact ih
    | msgInputTranscription text _ => exact ih
    | msgTurnComplete now _ => exact ih
    | msgAudio clock duration hc => exact sc_enqueueAudio _ clock duration ih hc
    | msgInterrupted _ => exact sc_interrupted _ ih
    | ended seg _ => exact sc_sourceEnded _ seg ih
    | errored msg => exact sc_onerror _ msg
    | closed wasClean => exact sc_onclose _ wasClean ih
    | stop => exact sc_stopSession _
    | timerFire t env hm => exact sc_startSession env _ ih

lemma timerInv_reachable (s : AppState) (h : Reachable s) : TimerInv s := by
  induction h with
  | init => exact Or.inl rfl
  | step _ hstep ih =>
    cases hstep with
    | start env => exact timerInv_startSession env _ ih
    | opened now => exact ih
    | msgOutputTranscription text _ => exact ih
    | msgInputTranscription text _ => exact ih
    | msgTurnComplete now _ => exact ih
    | msgAudio clock duration _ => exact ih
    | msgInterrupted _ => exact ih
    | ended seg _ => exact ih
    | errored msg => exact timerInv_onerror _ msg ih
    | closed wasClean => exact timerInv_onclose _ wasClean ih
    | stop => exact ih
    | timerFire t env hm =>
      exact timerInv_startSession env _ (timerInv_removeFired _ t ih hm)

/-! ### Facts about slice(-6) -/

lemma takeLast_length_le (l : List α) (n : Nat) : (takeLast l n).length ≤ n := by
  unfold takeLast
  rw [List.length_drop]
  omega

lemma takeLast_suffix (l : List α) (n : Nat) : takeLast l n <:+ l :=
  List.drop_suffix _ _

lemma suffix_takeLast {l t : List α} {n : Nat} (h : t <:+ l) (hn : t.length ≤ n) :
    t <:+ takeLast l n := by
  obtain ⟨p, rfl⟩ := h
  unfold takeLast
  rw [List.length_append, List.drop_append_of_le_length (by omega)]
  exact ⟨p.drop (p.length + t.length - n), rfl⟩

/-! ### The playback schedule chain -/

lemma segChain_le {l : List Segment} (h : SegChain l)
    (hd : ∀ seg ∈ l, 0 ≤ seg.duration) :
    List.Chain' (fun a b => a.start ≤ b.start) l := by
  induction l with
  | nil => exact List.chain'_nil
  | cons a t ih =>
    cases t with
    | nil => exact List.chain'_singleton a
    | cons b t2 =>
      rw [SegChain, List.chain'_cons] at h
      rw [List.chain'_cons]
      refine ⟨?_, ih h.2 (fun seg hs => hd seg (List.mem_cons_of_mem a hs))⟩
      have ha := hd a (List.mem_cons_self a (b :: t2))
      have hab := h.1
      linarith

lemma runEnqueues_chain (inputs : List (ℚ × ℚ)) (s : AppState)
    (hone : ∀ p ∈ inputs, 0 ≤ p.2)
    (hchain : SegChain s.sources)
    (hlast : ∀ seg ∈ s.sources.getLast?, seg.start + seg.duration ≤ s.nextStartTime)
    (hdur : ∀ seg ∈ s.sources, 0 ≤ seg.duration) :
    SegChain (runEnqueues s inputs).sources ∧
    ∀ seg ∈ (runEnqueues s inputs).sources, 0 ≤ seg.duration := by
  induction inputs generalizing s with
  | nil => exact ⟨hchain, hdur⟩
  | cons p rest ih =>
    apply ih
    · exact fun q hq => hone q (List.mem_cons_of_mem p hq)
    · show SegChain (s.sources ++ [⟨max s.nextStartTime p.1, p.2⟩])
      rw [SegChain, List.chain'_append]
      refine ⟨hchain, List.chain'_singleton _, ?_⟩
      intro x hx y hy
      have hxe := hlast x hx
      have hy2 : y = ⟨max s.nextStartTime p.1, p.2⟩ := (by simpa using hy :
        (⟨max s.nextStartTime p.1, p.2⟩ : Segment) = y).symm
      subst hy2
      exact le_trans hxe (le_max_left _ _)
    · intro seg hseg
      rw [show (enqueueAudio s p.1 p.2).sources
            = s.sources ++ [⟨max s.nextStartTime p.1, p.2⟩] from rfl,
          List.getLast?_concat] at hseg
      have hseg2 : seg = ⟨max s.nextStartTime p.1, p.2⟩ := (by simpa using hseg :
        (⟨max s.nextStartTime p.1, p.2⟩ : Segment) = seg).symm
      subst hseg2
      exact le_refl _
    · intro seg hseg
      rcases List.mem_append.mp hseg with hmem | hmem
      · exact hdur seg hmem
      · have hseg2 : seg = ⟨max s.nextStartTime p.1, p.2⟩ := by simpa using hmem
        subst hseg2
        exact hone p (List.mem_cons_self p rest)

/-! ### Codec round-trip facts -/

lemma decodeInt16_bytes (e : ℤ) (h1 : -32768 ≤ e) (h2 : e ≤ 32767) :
    decodeInt16 (byteLo e) (byteHi e) = e := by
  unfold decodeInt16 byteLo byteHi
  split <;> omega

lemma encodeSample_range (x : ℚ) (h1 : -1 ≤ x) (h2 : x ≤ 1) :
    -32768 ≤ encodeSample x ∧ encodeSample x ≤ 32767 := by
  unfold encodeSample
  have habs := abs_sub_round (x * 32767)
  rw [abs_le] at habs
  have hx1 : -32767 ≤ x * 32767 := by nlinarith
  have hx2 : x * 32767 ≤ 32767 := by nlinarith
  constructor
  · have hq : (-32768 : ℚ) < ((round (x * 32767) : ℤ) : ℚ) := by linarith
    exact_mod_cast hq.le
  · have hq : ((round (x * 32767) : ℤ) : ℚ) < 32768 := by linarith
    have hz : round (x * 32767) < 32768 := by exact_mod_cast hq
    omega

lemma decodeSample_err (x : ℚ) (h1 : -1 ≤ x) (h2 : x ≤ 1) :
    |((decodeInt16 (byteLo (encodeSample x)) (byteHi (encodeSample x)) : ℤ) : ℚ) / 32767 - x|
      ≤ 1 / 65534 := by
  obtain ⟨hr1, hr2⟩ := encodeSample_range x h1 h2
  rw [decodeInt16_bytes (encodeSample x) hr1 hr2]
  unfold encodeSample
  have habs := abs_sub_round (x * 32767)
  rw [abs_le] at habs
  rw [abs_le]
  constructor <;> nlinarith

lemma handleAutoReconnect_errorMessage (s : AppState) :
    (handleAutoReconnect s).errorMessage = s.errorMessage := by
  unfold handleAutoReconnect
  split <;> rfl

lemma startSession_nextStartTime (env : StartEnv) (s : AppState) :
    (startSession env s).nextStartTime = s.nextStartTime := by
  unfold startSession startSessionBody connectPhase
  split
  · rfl
  · split
    · rfl
    · split
      · rfl
      · split
        · exact handleAutoReconnect_nextStartTime _
        · split
          · rfl
          · rfl

lemma onerror_nextStartTime (s : AppState) (msg : String) :
    (onerror s msg).nextStartTime = s.nextStartTime := by
  unfold onerror
  split
  · rfl
  · exact handleAutoReconnect_nextStartTime _

lemma onclose_nextStartTime (s : AppState) (wasClean : Bool) :
    (onclose s wasClean).nextStartTime = s.nextStartTime := by
  unfold onclose
  split
  · rfl
  · exact handleAutoReconnect_nextStartTime _

/-! ## The claims -/

/-- C1: each enqueued segment is scheduled at the max of the output
device clock at enqueue time and the timeline cursor, and the cursor
then advances by the segment's duration; consequently, along any run of
enqueues from an empty schedule with non-negative durations, the
scheduled starts are non-decreasing and every segment ends at or before
the next one starts — segments never overlap. -/
theorem scheduling_monotone (s0 : AppState) (inputs : List (ℚ × ℚ))
    (hs : s0.sources = [])
    (hd : ∀ p ∈ inputs, 0 ≤ p.2) :
    (∀ (s : AppState) (clock duration : ℚ),
        (enqueueAudio s clock duration).sources
          = s.sources ++ [⟨max s.nextStartTime clock, duration⟩] ∧
        (enqueueAudio s clock duration).nextStartTime
          = max s.nextStartTime clock + duration) ∧
    SegChain (runEnqueues s0 inputs).sources ∧
    List.Chain' (fun a b => a.start ≤ b.start) (runEnqueues s0 inputs).sources := by
  have hchain0 : SegChain s0.sources := by
    rw [hs]
    exact List.chain'_nil
  have hlast0 : ∀ seg ∈ s0.sources.getLast?, seg.start + seg.duration ≤ s0.nextStartTime := by
    rw [hs]
    intro seg hseg
    simp at hseg
  have hdur0 : ∀ seg ∈ s0.sources, 0 ≤ seg.duration := by
    rw [hs]
    intro seg hseg
    simp at hseg
  have hmain := runEnqueues_chain inputs s0 hd hchain0 hlast0 hdur0
  exact ⟨fun s c d => ⟨rfl, rfl⟩, hmain.1, segChain_le hmain.1 hmain.2⟩

/-- Witness for C1: two unit-duration segments enqueued back to back
from the initial state really chain without overlap. -/
theorem scheduling_monotone_witness :
    initState.sources = [] ∧ (∀ p ∈ [((0 : ℚ), (1 : ℚ)), (0, 1)], 0 ≤ p.2) ∧
    SegChain (runEnqueues initState [((0 : ℚ), (1 : ℚ)), (0, 1)]).sources := by
  have hd : ∀ p ∈ [((0 : ℚ), (1 : ℚ)), (0, 1)], 0 ≤ p.2 := by
    intro p hp
    rcases List.mem_cons.mp hp with rfl | hp2
    · exact zero_le_one
    rcases List.mem_cons.mp hp2 with rfl | hp3
    · exact zero_le_one
    · cases hp3
  exact ⟨rfl, hd, (scheduling_monotone initState [((0 : ℚ), (1 : ℚ)), (0, 1)] rfl hd).2.1⟩

/-- C5: the interruption flush empties the active set, zeroes the
timeline cursor and clears `isSpeaking`, regardless of the prior state;
it is idempotent (safe to call twice), and a state with no active
segments, zero cursor and `isSpeaking` off is left untouched (no-op). -/
theorem flush_clears_state (s : AppState) :
    (interrupted s).sources = [] ∧
    (interrupted s).nextStartTime = 0 ∧
    (interrupted s).voiceState.isSpeaking = false ∧
    interrupted (interrupted s) = interrupted s ∧
    (s.sources = [] → s.nextStartTime = 0 → s.voiceState.isSpeaking = false →
      interrupted s = s) := by
  refine ⟨rfl, rfl, rfl, rfl, ?_⟩
  intro h1 h2 h3
  have hv : { s.voiceState with isSpeaking := false } = s.voiceState := by
    rw [← h3]
  unfold interrupted
  rw [hv, ← h1, ← h2]

/-- Witness for C5: the initial state has no active segments and the
flush leaves it untouched. -/
theorem flush_clears_state_witness :
    interrupted initState = initState ∧ (interrupted initState).sources = [] :=
  ⟨(flush_clears_state initState).2.2.2.2 rfl rfl rfl, (flush_clears_state initState).1⟩

/-- C3 counterexample: along a reachable trace — session opened, five
turns completed (history length 6), abnormal close, automatic state
reset, manual restart — the second welcome append pushes the history
length to 7, refuting the claim that it never exceeds 6. -/
theorem history_can_exceed_six :
    Reachable c3Final ∧ c3Final.transcriptionHistory.length = 7 := by
  constructor
  · have h0 : Reachable initState := Reachable.init
    have h1 := h0.step (Step.start initState envOK)
    have h2 := h1.step (Step.opened _ 0)
    have h3 := h2.step (Step.msgInputTranscription _ "hey" (by decide))
    have h4 := h3.step (Step.msgTurnComplete _ 1 (by decide))
    have h5 := h4.step (Step.msgInputTranscription _ "hey" (by decide))
    have h6 := h5.step (Step.msgTurnComplete _ 2 (by decide))
    have h7 := h6.step (Step.msgInputTranscription _ "hey" (by decide))
    have h8 := h7.step (Step.msgTurnComplete _ 3 (by decide))
    have h9 := h8.step (Step.msgInputTranscription _ "hey" (by decide))
    have h10 := h9.step (Step.msgTurnComplete _ 4 (by decide))
    have h11 := h10.step (Step.msgInputTranscription _ "hey" (by decide))
    have h12 := h11.step (Step.msgTurnComplete _ 5 (by decide))
    have h13 := h12.step (Step.closed _ false)
    have h14 := h13.step (Step.start _ envOK)
    exact h14.step (Step.opened _ 9)
  · decide

/-- C3 amended: every turn-completion append truncates the history to at
most the 6 most recent entries, but the welcome entry on session open is
appended without truncation and grows the history by exactly one entry,
so the length can exceed 6 until the next turn completion. -/
theorem history_bound_amended (s : AppState) (now : Nat) :
    (turnComplete now s).transcriptionHistory.length ≤ 6 ∧
    (onopen now s).transcriptionHistory.length = s.transcriptionHistory.length + 1 := by
  constructor
  · exact takeLast_length_le _ 6
  · show (s.transcriptionHistory ++ [_]).length = _
    simp

/-- C6: turn completion clears both accumulators and both live-preview
strings; with both accumulators empty it appends nothing (the resulting
history is a suffix of the old one); with a non-empty user accumulator a
user entry is appended, with a non-empty assistant accumulator an
assistant entry is appended, and when both are present the user entry
precedes the assistant entry at the end of the history. -/
theorem turn_completion_spec (s : AppState) (now : Nat) :
    ((turnComplete now s).userTextRef = "" ∧ (turnComplete now s).assistantTextRef = "" ∧
     (turnComplete now s).currentUserText = "" ∧
     (turnComplete now s).currentAssistantText = "") ∧
    (s.userTextRef = "" → s.assistantTextRef = "" →
      (turnComplete now s).transcriptionHistory <:+ s.transcriptionHistory) ∧
    (s.userTextRef ≠ "" → s.assistantTextRef ≠ "" →
      [userEntry now s.userTextRef, assistantEntry now s.assistantTextRef]
        <:+ (turnComplete now s).transcriptionHistory) ∧
    (s.userTextRef ≠ "" → s.assistantTextRef = "" →
      [userEntry now s.userTextRef] <:+ (turnComplete now s).transcriptionHistory) ∧
    (s.userTextRef = "" → s.assistantTextRef ≠ "" →
      [assistantEntry now s.assistantTextRef] <:+ (turnComplete now s).transcriptionHistory) := by
  refine ⟨⟨rfl, rfl, rfl, rfl⟩, ?_, ?_, ?_, ?_⟩
  · intro hu ha
    have heq : (turnComplete now s).transcriptionHistory
        = takeLast s.transcriptionHistory 6 := by
      unfold turnComplete
      simp [hu, ha]
    rw [heq]
    exact takeLast_suffix _ _
  · intro hu ha
    have heq : (turnComplete now s).transcriptionHistory
        = takeLast ((s.transcriptionHistory ++ [userEntry now s.userTextRef]) ++
                    [assistantEntry now s.assistantTextRef]) 6 := by
      unfold turnComplete
      simp [hu, ha]
    rw [heq]
    apply suffix_takeLast
    · exact ⟨s.transcriptionHistory, by simp⟩
    · simp
  · intro hu ha
    have heq : (turnComplete now s).transcriptionHistory
        = takeLast (s.transcriptionHistory ++ [userEntry now s.userTextRef]) 6 := by
      unfold turnComplete
      simp [hu, ha]
    rw [heq]
    apply suffix_takeLast
    · exact ⟨s.transcriptionHistory, rfl⟩
    · simp
  · intro hu ha
    have heq : (turnComplete now s).transcriptionHistory
        = takeLast (s.transcriptionHistory ++ [assistantEntry now s.assistantTextRef]) 6 := by
      unfold turnComplete
      simp [hu, ha]
    rw [heq]
    apply suffix_takeLast
    · exact ⟨s.transcriptionHistory, rfl⟩
    · simp

/-- Witness for C6: a turn with user fragment `"hi"` and assistant
fragment `"yo"` really ends with the user entry followed by the
assistant entry. -/
theorem turn_completion_spec_witness :
    [userEntry 3 "hi", assistantEntry 3 "yo"] <:+
      (turnComplete 3
        (appendOutputTranscription (appendInputTranscription initState "hi") "yo")
       ).transcriptionHistory :=
  (turn_completion_spec
    (appendOutputTranscription (appendInputTranscription initState "hi") "yo") 3
   ).2.2.1 (by decide) (by decide)

/-- C2 counterexample: after a transient error has armed the 5-second
reconnect timer along a reachable trace, a manual `stopSession` leaves
that timer pending — the pending reconnection is not cancelled before a
manual stop, contrary to the claim. -/
theorem reconnect_timer_survives_stop :
    Reachable c2ErrState ∧
    c2ErrState.pendingTimers = [⟨1, 5000⟩] ∧
    (stopSession c2ErrState).pendingTimers = [⟨1, 5000⟩] := by
  refine ⟨?_, by decide, by decide⟩
  exact (Reachable.init.step (Step.start initState envOK)).step
    (Step.errored _ "network failure")

/-- C2 amended: in every reachable state at most one reconnect timer is
pending, because `handleAutoReconnect` cancels any pending timer before
arming a new one (so two abnormal closes within the delay window fire at
most one reconnection); a manual start or stop, however, does not cancel
a pending reconnect timer. -/
theorem reconnect_debounce_amended (s : AppState) (h : Reachable s) :
    s.pendingTimers.length ≤ 1 := by
  rcases timerInv_reachable s h with h0 | ⟨i, _, h0⟩ <;> simp [h0]

/-- Witness for C2 (amended) at the initial reachable state. -/
theorem reconnect_debounce_amended_witness :
    initState.pendingTimers.length ≤ 1 :=
  reconnect_debounce_amended initState Reachable.init

/-- C4: a session error is classified — a credential error surfaces the
rejection message, raises the reauthorization flag and closes the
session without scheduling any reconnection; every other error, and
every unclean close, surfaces a transient message, closes the session,
and schedules exactly one reconnection timer with a 5000 ms delay when
the user has interacted and reauthorization is not pending (and none
otherwise); a clean close does nothing. -/
theorem error_classification (s : AppState) (msg : String) (hinv : TimerInv s) :
    (isCredentialError msg = true →
      (onerror s msg).needsApiKey = true ∧
      (onerror s msg).voiceState = allFalse ∧
      (onerror s msg).errorMessage
        = some "Link rejected. Key might be invalid or from unpaid project." ∧
      (onerror s msg).pendingTimers = s.pendingTimers) ∧
    (isCredentialError msg = false →
      (onerror s msg).voiceState = allFalse ∧
      (onerror s msg).errorMessage
        = some "Neural bridge sync failure. Attempting recalibration..." ∧
      (s.hasInteracted = true → s.needsApiKey = false →
        (onerror s msg).pendingTimers = [⟨s.nextTimerId, 5000⟩]) ∧
      (¬(s.hasInteracted = true ∧ s.needsApiKey = false) →
        (onerror s msg).pendingTimers = [])) ∧
    ((onclose s false).voiceState = allFalse ∧
     (onclose s false).errorMessage = some "Spatial Link unexpectedly terminated." ∧
     (s.hasInteracted = true → s.needsApiKey = false →
       (onclose s false).pendingTimers = [⟨s.nextTimerId, 5000⟩]) ∧
     (¬(s.hasInteracted = true ∧ s.needsApiKey = false) →
       (onclose s false).pendingTimers = [])) ∧
    onclose s true = s := by
  refine ⟨?_, ?_, ⟨?_, ?_, ?_, ?_⟩, rfl⟩
  · intro hc
    have he : onerror s msg
        = stopSession { showError s
            "Link rejected. Key might be invalid or from unpaid project."
            with needsApiKey := true } := by
      unfold onerror
      rw [hc]
      simp
    rw [he]
    exact ⟨rfl, rfl, rfl, rfl⟩
  · intro hc
    have he : onerror s msg
        = handleAutoReconnect (showError s
            "Neural bridge sync failure. Attempting recalibration...") := by
      unfold onerror
      rw [hc]
      simp
    rw [he]
    refine ⟨handleAutoReconnect_voiceState _, ?_, ?_, ?_⟩
    · rw [handleAutoReconnect_errorMessage]
      rfl
    · intro ha hk
      exact handleAutoReconnect_timers_armed _ hinv ha hk
    · intro hd
      exact handleAutoReconnect_timers_unarmed _ hinv hd
  · exact handleAutoReconnect_voiceState _
  · rw [show onclose s false
        = handleAutoReconnect (showError s "Spatial Link unexpectedly terminated.")
        from rfl]
    rw [handleAutoReconnect_errorMessage]
    rfl
  · intro ha hk
    exact handleAutoReconnect_timers_armed _ hinv ha hk
  · intro hd
    exact handleAutoReconnect_timers_unarmed _ hinv hd

/-- Witness for C4: a credential error at the fresh state raises the
reauthorization flag without arming a reconnect timer, and a transient
error before any interaction arms none either. -/
theorem error_classification_witness :
    TimerInv initState ∧
    (onerror initState "API_KEY_INVALID").needsApiKey = true ∧
    (onerror initState "API_KEY_INVALID").pendingTimers = initState.pendingTimers := by
  have hinv : TimerInv initState := Or.inl rfl
  have h := (error_classification initState "API_KEY_INVALID" hinv).1 (by decide)
  exact ⟨hinv, h.1, h.2.2.2⟩

/-- C7: decoding an encoded frame of samples from `[-1,1]` preserves the
frame length and reproduces every sample in place within 16-bit
quantization tolerance. -/
theorem codec_round_trip (s : List ℚ) (h : ∀ x ∈ s, -1 ≤ x ∧ x ≤ 1) :
    (decodeOutputPayload (encodeInputFrame s)).length = s.length ∧
    ∀ i, i < s.length →
      |(decodeOutputPayload (encodeInputFrame s)).getD i 0 - s.getD i 0| ≤ 1 / 65534 := by
  induction s with
  | nil =>
    refine ⟨rfl, ?_⟩
    intro i hi
    simp at hi
  | cons x t ih =>
    have hx := h x (List.mem_cons_self x t)
    have ht := ih (fun y hy => h y (List.mem_cons_of_mem x hy))
    constructor
    · show (decodeOutputPayload
          (byteLo (encodeSample x) :: byteHi (encodeSample x) :: encodeInputFrame t)).length
        = t.length + 1
      show (decodeOutputPayload (encodeInputFrame t)).length + 1 = t.length + 1
      rw [ht.1]
    · intro i hi
      cases i with
      | zero => exact decodeSample_err x hx.1 hx.2
      | succ j =>
        exact ht.2 j (by simpa using hi)

/-- Witness for C7: the one-sample frame `[0]` round-trips within
tolerance. -/
theorem codec_round_trip_witness :
    (∀ x ∈ [(0 : ℚ)], -1 ≤ x ∧ x ≤ 1) ∧
    (decodeOutputPayload (encodeInputFrame [(0 : ℚ)])).length = [(0 : ℚ)].length ∧
    ∀ i, i < [(0 : ℚ)].length →
      |(decodeOutputPayload (encodeInputFrame [(0 : ℚ)])).getD i 0
        - [(0 : ℚ)].getD i 0| ≤ 1 / 65534 := by
  have hh : ∀ x ∈ [(0 : ℚ)], -1 ≤ x ∧ x ≤ 1 := by
    intro x hx
    rcases List.mem_singleton.mp hx with rfl
    exact ⟨neg_nonpos.mpr zero_le_one, zero_le_one⟩
  exact ⟨hh, codec_round_trip [(0 : ℚ)] hh⟩

/-- C8: in every reachable state the four VoiceState booleans are
mutually consistent — `isListening` and `isSpeaking` hold only while
`isConnected` holds, and `isConnecting` holds only while `isConnected`
does not. -/
theorem voice_state_consistent (s : AppState) (h : Reachable s) :
    StateConsistent s :=
  sc_reachable s h

/-- Witness for C8 at the initial reachable state. -/
theorem voice_state_consistent_witness : StateConsistent initState :=
  voice_state_consistent initState Reachable.init

/-- C9: when the idempotence guard and both key checks pass but the
microphone permission is denied, `startSession` surfaces the microphone
error message, ends with `isConnecting` back to false, and schedules no
reconnection (timer pool and ref untouched). -/
theorem mic_denied_aborts (env : StartEnv) (s : AppState)
    (hg : s.voiceState.isConnecting = false) (hc : s.voiceState.isConnected = false)
    (ha : (env.aistudioPresent && !env.hasSelectedApiKey) = false)
    (hk : env.apiKeyPresent = true) (hf : env.setupFails = false)
    (hm : env.micGranted = false) :
    (startSession env s).errorMessage
      = some "Microphone access is restricted. Enable permissions for link." ∧
    (startSession env s).voiceState.isConnecting = false ∧
    (startSession env s).pendingTimers = s.pendingTimers ∧
    (startSession env s).reconnectTimerRef = s.reconnectTimerRef := by
  unfold startSession startSessionBody connectPhase
  rw [hg, hc]
  simp [ha, hk, hf, hm, showError]

/-- Witness for C9: microphone denial at the fresh state with a valid
key environment. -/
theorem mic_denied_aborts_witness :
    (startSession ⟨false, false, true, false, false⟩ initState).errorMessage
      = some "Microphone access is restricted. Enable permissions for link." ∧
    (startSession ⟨false, false, true, false, false⟩ initState).pendingTimers
      = initState.pendingTimers := by
  have h := mic_denied_aborts ⟨false, false, true, false, false⟩ initState
    rfl rfl rfl rfl rfl rfl
  exact ⟨h.1, h.2.2.1⟩

/-- C10: a graceful stop leaves the playback timeline cursor unchanged;
every other operation except the interruption flush leaves it unchanged
too (an enqueue with non-negative duration only moves it forward), and
only the interruption flush resets it to zero; hence the first segment
enqueued after a stop is scheduled at the max of the new device clock
and the stale cursor carried over from the previous session. -/
theorem stop_preserves_cursor (s : AppState) (env : StartEnv) (m text : String)
    (now : Nat) (wasClean : Bool) (seg : Segment) (clock duration : ℚ) :
    (stopSession s).nextStartTime = s.nextStartTime ∧
    (enqueueAudio (stopSession s) clock duration).sources
      = [⟨max s.nextStartTime clock, duration⟩] ∧
    (startSession env s).nextStartTime = s.nextStartTime ∧
    (onopen now s).nextStartTime = s.nextStartTime ∧
    (appendInputTranscription s text).nextStartTime = s.nextStartTime ∧
    (appendOutputTranscription s text).nextStartTime = s.nextStartTime ∧
    (turnComplete now s).nextStartTime = s.nextStartTime ∧
    (sourceEnded s seg).nextStartTime = s.nextStartTime ∧
    (onerror s m).nextStartTime = s.nextStartTime ∧
    (onclose s wasClean).nextStartTime = s.nextStartTime ∧
    (handleAutoReconnect s).nextStartTime = s.nextStartTime ∧
    (interrupted s).nextStartTime = 0 ∧
    (0 ≤ duration → s.nextStartTime ≤ (enqueueAudio s clock duration).nextStartTime) := by
  refine ⟨rfl, rfl, startSession_nextStartTime env s, rfl, rfl, rfl, rfl, rfl,
    onerror_nextStartTime s m, onclose_nextStartTime s wasClean,
    handleAutoReconnect_nextStartTime s, rfl, ?_⟩
  intro hd
  show s.nextStartTime ≤ max s.nextStartTime clock + duration
  exact le_trans (le_max_left _ _) (le_add_of_nonneg_right hd)

/-- Witness for C10: a unit-duration enqueue from the initial state
moves the cursor forward. -/
theorem stop_preserves_cursor_witness :
    (0 : ℚ) ≤ 1 ∧
    initState.nextStartTime ≤ (enqueueAudio initState 0 1).nextStartTime :=
  ⟨zero_le_one,
    (stop_preserves_cursor initState envOK "" "" 0 true ⟨0, 0⟩ 0 1
     ).2.2.2.2.2.2.2.2.2.2.2.2 zero_le_one⟩

end VoiceApp
